import Mathlib

/-!
Verification of the prompt-wait classifier (`src/promptDetector.ts`) and the
webview terminal registry (`media/main.ts`) of the claude-terminal-panel
repository, as a shallow embedding.

Modelling conventions:
* JS strings are `List Char`; JS `Map` objects are functions `String → Option _`
  updated pointwise.
* JS `RegExp` objects are records carrying an abstract `search` function
  (from a start index, return the end index of the first match, if any),
  the `global` flag and the mutable `lastIndex`, with `test` implementing the
  ECMAScript semantics of `RegExp.prototype.test`.  The individual built-in
  pattern literals and `new RegExp(p)` results are kept parametric in their
  `search` functions, since none of the verified properties depends on which
  strings a given pattern matches; what matters — and is modelled concretely —
  is that no pattern of this program carries the `global` flag, so `test` is
  stateless.
* `setTimeout`/`clearTimeout` are modelled by a pool of pending timer tokens
  (`pending`) plus a fresh-token counter (`nextTimer`) carried in the detector
  state; a scheduler step (`fireTimer`) may fire any pending token, which runs
  the stored callback (`checkForPrompt`) exactly once; `clearTimeout` removes
  the token from the pool so it can never fire.
* `stripAnsi` implements the concrete ANSI-strip regex (ESC followed either
  by one Fe byte in 0x40..0x5A or 0x5C..0x5F, or by a CSI sequence: an open
  bracket, parameter bytes 0x30..0x3F, intermediate bytes 0x20..0x2F, and one
  final byte 0x40..0x7E) replaced globally by the empty string: since the
  three CSI character classes are pairwise disjoint, greedy left-to-right
  scanning is exact.
-/

/-- A JS `RegExp` object: an abstract match engine plus the per-object state
(`global` flag, mutable `lastIndex`) that `test` consults and updates. -/
structure JsRegExp where
  search : Nat → List Char → Option Nat
  global : Bool
  lastIndex : Nat

/-- `RegExp.prototype.test`: for a non-global regex, search from index 0 and
leave the object unchanged; for a global regex, search from `lastIndex` and
update it (to the match end on success, to 0 on failure). Returns the boolean
result together with the (possibly updated) regex object. -/
def JsRegExp.test (r : JsRegExp) (s : List Char) : Bool × JsRegExp :=
  if r.global then
    match r.search r.lastIndex s with
    | some e => (true, { r with lastIndex := e })
    | none => (false, { r with lastIndex := 0 })
  else ((r.search 0 s).isSome, r)

/-- `patterns.some((pattern) => pattern.test(tail))` from `checkForPrompt`:
`Array.prototype.some` short-circuits, and each `test` may update its regex
object, so the traversal threads the pattern list through. -/
def someTest : List JsRegExp → List Char → Bool × List JsRegExp
  | [], _ => (false, [])
  | r :: rs, s =>
    let p := JsRegExp.test r s
    if p.1 then (true, p.2 :: rs)
    else
      let q := someTest rs s
      (q.1, p.2 :: q.2)

/-- Fe byte class of the ANSI-strip regex: 0x40..0x5A or 0x5C..0x5F. -/
def isFeByte (c : Char) : Bool :=
  (0x40 ≤ c.toNat && c.toNat ≤ 0x5A) || (0x5C ≤ c.toNat && c.toNat ≤ 0x5F)

/-- CSI parameter bytes: 0x30..0x3F. -/
def isCsiParam (c : Char) : Bool := 0x30 ≤ c.toNat && c.toNat ≤ 0x3F

/-- CSI intermediate bytes: 0x20..0x2F. -/
def isCsiInter (c : Char) : Bool := 0x20 ≤ c.toNat && c.toNat ≤ 0x2F

/-- CSI final bytes: 0x40..0x7E. -/
def isCsiFinal (c : Char) : Bool := 0x40 ≤ c.toNat && c.toNat ≤ 0x7E

/-- Match the CSI body (parameter bytes, then intermediate bytes, then one
final byte) at the head of `l`, returning the remainder after the match. -/
def matchCsiTail (l : List Char) : Option (List Char) :=
  match (l.dropWhile isCsiParam).dropWhile isCsiInter with
  | [] => none
  | c :: rest => if isCsiFinal c then some rest else none

/-- Match the part of the strip regex after the ESC byte (one Fe byte, or an
open bracket followed by a CSI body) at the head of `l`. -/
def matchEscTail : List Char → Option (List Char)
  | [] => none
  | c :: rest =>
    if isFeByte c then some rest
    else if c = '[' then matchCsiTail rest
    else none

theorem matchCsiTail_length {l r : List Char} (h : matchCsiTail l = some r) :
    r.length ≤ l.length := by
  have h1 : ((l.dropWhile isCsiParam).dropWhile isCsiInter).length ≤ l.length :=
    le_trans (List.dropWhile_sublist _).length_le (List.dropWhile_sublist _).length_le
  unfold matchCsiTail at h
  rcases hm : (l.dropWhile isCsiParam).dropWhile isCsiInter with _ | ⟨c, rest⟩
  · rw [hm] at h; cases h
  · rw [hm] at h h1
    dsimp only at h
    by_cases hf : isCsiFinal c = true
    · rw [if_pos hf] at h
      injection h with h2
      subst h2
      simp only [List.length_cons] at h1
      omega
    · rw [if_neg hf] at h; cases h

theorem matchEscTail_length {l r : List Char} (h : matchEscTail l = some r) :
    r.length ≤ l.length := by
  cases l with
  | nil => simp [matchEscTail] at h
  | cons c rest =>
    simp only [matchEscTail] at h
    by_cases hf : isFeByte c = true
    · rw [if_pos hf] at h
      injection h with h2
      subst h2
      simp
    · rw [if_neg hf] at h
      by_cases hb : c = '['
      · rw [if_pos hb] at h
        exact le_trans (matchCsiTail_length h) (by simp)
      · rw [if_neg hb] at h; cases h

/-- `stripAnsi` from `promptDetector.ts`: global replacement of every ANSI
escape sequence (ESC + Fe byte, or ESC + CSI sequence) by the empty string,
as a left-to-right scan. -/
def stripAnsi : List Char → List Char
  | [] => []
  | c :: rest =>
    if c = Char.ofNat 0x1B then
      match h : matchEscTail rest with
      | some rest2 => stripAnsi rest2
      | none => c :: stripAnsi rest
    else c :: stripAnsi rest
termination_by l => l.length
decreasing_by
  · exact Nat.lt_succ_of_le (matchEscTail_length h)
  · exact Nat.lt_succ_self _
  · exact Nat.lt_succ_self _

/-- The last `n` characters of `l` (all of `l` when `l` is shorter). -/
def takeLast (n : Nat) (l : List Char) : List Char := l.drop (l.length - n)

/-- JS `s.slice(-n)` for a natural `n`: the last `n` characters — except that
`-0` is `0` in JS, so `slice(-0)` returns the whole string. -/
def jsSliceLast (l : List Char) (n : Nat) : List Char :=
  if n = 0 then l else takeLast n l

/-- The `PromptBuffer` class: a character buffer with a capacity bound. -/
structure PromptBuffer where
  buffer : List Char
  maxSize : Nat
deriving DecidableEq

/-- `new PromptBuffer(maxSize = 500)`. -/
def PromptBuffer.new (maxSize : Nat := 500) : PromptBuffer :=
  { buffer := [], maxSize := maxSize }

/-- `PromptBuffer.append`: concatenate, then keep only the trailing `maxSize`
characters (via `slice(-maxSize)`) when the length bound is exceeded. -/
def PromptBuffer.append (b : PromptBuffer) (data : List Char) : PromptBuffer :=
  let buf := b.buffer ++ data
  if b.maxSize < buf.length then { b with buffer := jsSliceLast buf b.maxSize }
  else { b with buffer := buf }

/-- `PromptBuffer.getContent`. -/
def PromptBuffer.getContent (b : PromptBuffer) : List Char := b.buffer

/-- `PromptBuffer.clear`. -/
def PromptBuffer.clear (b : PromptBuffer) : PromptBuffer := { b with buffer := [] }

theorem takeLast_length (n : Nat) (l : List Char) :
    (takeLast n l).length = min n l.length := by
  simp [takeLast]
  omega

theorem takeLast_of_length_le {n : Nat} {l : List Char} (h : l.length ≤ n) :
    takeLast n l = l := by
  simp [takeLast, Nat.sub_eq_zero_of_le h]

theorem takeLast_append_takeLast (n : Nat) (s d : List Char) :
    takeLast n (takeLast n s ++ d) = takeLast n (s ++ d) := by
  unfold takeLast
  rw [← List.drop_append_of_le_length (Nat.sub_le s.length n), List.drop_drop]
  congr 1
  simp only [List.length_drop, List.length_append]
  omega

theorem promptBuffer_append_takeLast (N : Nat) (hN : 0 < N) (s d : List Char) :
    PromptBuffer.append { buffer := takeLast N s, maxSize := N } d
      = { buffer := takeLast N (s ++ d), maxSize := N } := by
  unfold PromptBuffer.append
  simp only
  split
  · rename_i hover
    unfold jsSliceLast
    rw [if_neg (Nat.pos_iff_ne_zero.mp hN)]
    rw [takeLast_append_takeLast]
  · rename_i hfit
    simp only [not_lt] at hfit
    congr 1
    rcases le_or_lt s.length N with hs | hs
    · rw [takeLast_of_length_le hs] at hfit ⊢
      rw [takeLast_of_length_le (by simpa using hfit)]
    · have hlen : (takeLast N s).length = N := by
        rw [takeLast_length]; omega
      have hd : d.length = 0 := by
        have := hfit
        rw [List.length_append, hlen] at this
        omega
      have hdnil : d = [] := List.eq_nil_of_length_eq_zero hd
      subst hdnil
      simp

theorem promptBuffer_foldl_append (N : Nat) (hN : 0 < N) (chunks : List (List Char)) :
    ∀ s : List Char,
      chunks.foldl PromptBuffer.append { buffer := takeLast N s, maxSize := N }
        = { buffer := takeLast N (s ++ chunks.flatten), maxSize := N } := by
  induction chunks with
  | nil => intro s; simp
  | cons c cs ih =>
    intro s
    rw [List.foldl_cons, promptBuffer_append_takeLast N hN s c, ih (s ++ c),
      List.append_assoc, ← List.flatten_cons]

/-- C2: for every capacity `N > 0` and every sequence of appended chunks, the
sliding buffer's length never exceeds `N`, and its content is exactly the last
`min N (total length)` characters of the concatenation of all chunks, in
order. -/
theorem c2_sliding_buffer (N : Nat) (hN : 0 < N) (chunks : List (List Char)) :
    (chunks.foldl PromptBuffer.append (PromptBuffer.new N)).buffer.length ≤ N
    ∧ (chunks.foldl PromptBuffer.append (PromptBuffer.new N)).buffer
        = takeLast N chunks.flatten
    ∧ (chunks.foldl PromptBuffer.append (PromptBuffer.new N)).buffer.length
        = min N chunks.flatten.length := by
  have hinit : PromptBuffer.new N = { buffer := takeLast N [], maxSize := N } := by
    simp [PromptBuffer.new, takeLast]
  rw [hinit, promptBuffer_foldl_append N hN chunks []]
  refine ⟨?_, rfl, ?_⟩
  · rw [takeLast_length]
    omega
  · rw [takeLast_length]
    simp

/-- C2 witness: ten chunks of 100 characters into a capacity-500 buffer leave
exactly the last 500 characters. -/
theorem c2_sliding_buffer_witness :
    (0 < 500
      ∧ ((List.replicate 10 (List.replicate 100 'x')).foldl PromptBuffer.append
          (PromptBuffer.new 500)).buffer.length ≤ 500)
    ∧ ((List.replicate 10 (List.replicate 100 'x')).foldl PromptBuffer.append
        (PromptBuffer.new 500)).buffer.length
        = min 500 (List.replicate 10 (List.replicate 100 'x')).flatten.length := by
  have h := c2_sliding_buffer 500 (by decide) (List.replicate 10 (List.replicate 100 'x'))
  exact ⟨⟨by decide, h.1⟩, h.2.2⟩

/-- The `PromptDetectorConfig` interface. -/
structure PromptDetectorConfig where
  enabled : Bool
  showDelay : Nat
  customPatterns : List String
deriving DecidableEq

/-- The type of regex match engines: from a start index and a subject string,
the end index of the first match, if any. -/
def SearchFn : Type := Nat → List Char → Option Nat

/-- `buildPatterns`: start from the built-in defaults, then for each custom
pattern string try `new RegExp(pattern)` — pushing the compiled regex on
success and silently skipping the string when compilation throws.  `compile`
models `new RegExp`: it is the partial regex compiler of the JS runtime, and
a `RegExp` constructed with no flags argument has `global = false` and
`lastIndex = 0`. -/
def buildPatterns (defaults : List JsRegExp) (compile : String → Option SearchFn)
    (customPatterns : List String) : List JsRegExp :=
  customPatterns.foldl
    (fun acc p =>
      match compile p with
      | some f => acc ++ [{ search := f, global := false, lastIndex := 0 }]
      | none => acc)
    defaults

/-- The full state of a `PromptDetector` instance together with the host timer
state it interacts with: `buffers`, `timers`, `waitingState` are the three
per-terminal `Map`s of the class, `patterns` and `config` its other fields;
`events` is the trace of `onNotificationChange` callback invocations (oldest
first); `pending` is the pool of scheduled-and-not-yet-fired-or-cancelled
`setTimeout` tokens with the terminal id their callback captured, and
`nextTimer` the fresh-token source. -/
structure DetectorState where
  buffers : String → Option PromptBuffer
  timers : String → Option Nat
  waitingState : String → Option Bool
  patterns : List JsRegExp
  config : PromptDetectorConfig
  events : List (String × Bool)
  pending : List (Nat × String)
  nextTimer : Nat

/-- Pointwise update of a `Map` modelled as a function. -/
def updMap {α : Type} (m : String → Option α) (k : String) (v : Option α) :
    String → Option α :=
  fun x => if x = k then v else m x

/-- `PromptDetector.setWaitingState`: record and notify only when the new
value differs from the recorded one (`undefined` reads as `false`). -/
def setWaitingState (s : DetectorState) (id : String) (isWaiting : Bool) :
    DetectorState :=
  if (s.waitingState id).getD false ≠ isWaiting then
    { s with waitingState := updMap s.waitingState id (some isWaiting),
             events := s.events ++ [(id, isWaiting)] }
  else s

/-- `PromptDetector.clearTimer`: if a timer handle is recorded for `id`,
`clearTimeout` it (remove its token from the pending pool) and delete the
map entry. -/
def clearTimer (s : DetectorState) (id : String) : DetectorState :=
  match s.timers id with
  | some t =>
    { s with pending := s.pending.filter (fun p => p.1 != t),
             timers := updMap s.timers id none }
  | none => s

/-- `PromptDetector.checkForPrompt` (the evaluation-timer callback body):
return unchanged when no buffer exists; otherwise strip ANSI sequences from
the full buffer content, take the trailing 200 characters, test the patterns
(threading their state) and hand the disjunction to `setWaitingState`. -/
def checkForPrompt (s : DetectorState) (id : String) : DetectorState :=
  match s.buffers id with
  | none => s
  | some b =>
    let content := stripAnsi b.getContent
    let tail := jsSliceLast content 200
    let p := someTest s.patterns tail
    setWaitingState { s with patterns := p.2 } id p.1

/-- The boolean an evaluation computes from a pattern list and a raw buffer
content: strip ANSI sequences, keep the trailing 200 characters, and test
every pattern against that tail. -/
def computeIsWaiting (ps : List JsRegExp) (content : List Char) : Bool :=
  (someTest ps (jsSliceLast (stripAnsi content) 200)).1

/-- First block of `onData`: get the terminal's buffer, creating an empty
capacity-500 one when absent, append the chunk, and store the result. -/
def appendBuf (s : DetectorState) (id : String) (data : List Char) : DetectorState :=
  { s with buffers :=
      updMap s.buffers id (some (((s.buffers id).getD PromptBuffer.new).append data)) }

/-- Third block of `onData`: if the notification is showing, hide it at once. -/
def hideIfWaiting (s : DetectorState) (id : String) : DetectorState :=
  if (s.waitingState id).getD false then setWaitingState s id false else s

/-- Last block of `onData`: `setTimeout` a fresh evaluation timer and record
its handle in the `timers` map. -/
def sched (s : DetectorState) (id : String) : DetectorState :=
  { s with pending := s.pending ++ [(s.nextTimer, id)],
           timers := updMap s.timers id (some s.nextTimer),
           nextTimer := s.nextTimer + 1 }

/-- `PromptDetector.onData`: bail out when disabled; otherwise append the
chunk to the terminal's buffer, cancel any pending evaluation timer, hide the
notification at once if it is showing, and schedule a fresh evaluation
timer — in that order. -/
def onData (s : DetectorState) (id : String) (data : List Char) : DetectorState :=
  if s.config.enabled = false then s
  else sched (hideIfWaiting (clearTimer (appendBuf s id data) id) id) id

/-- Last block of `onUserInput`: clear the terminal's buffer if it exists. -/
def clearBuf (s : DetectorState) (id : String) : DetectorState :=
  match s.buffers id with
  | some b => { s with buffers := updMap s.buffers id (some b.clear) }
  | none => s

/-- `PromptDetector.onUserInput`: cancel the timer, force the state to not
waiting, and clear the terminal's buffer if it exists. -/
def onUserInput (s : DetectorState) (id : String) : DetectorState :=
  clearBuf (setWaitingState (clearTimer s id) id false) id

/-- `PromptDetector.removeTerminal`: cancel the timer and delete the buffer
and wait-state entries. -/
def removeTerminal (s : DetectorState) (id : String) : DetectorState :=
  let s1 := clearTimer s id
  { s1 with buffers := updMap s1.buffers id none,
            waitingState := updMap s1.waitingState id none }

/-- `PromptDetector.updateConfig`: store the new config and atomically replace
the active pattern array with a freshly built one. -/
def updateConfig (defaults : List JsRegExp) (compile : String → Option SearchFn)
    (s : DetectorState) (c : PromptDetectorConfig) : DetectorState :=
  { s with config := c, patterns := buildPatterns defaults compile c.customPatterns }

/-- Host scheduler step: the timeout with token `t` (whose callback captured
terminal id `id`) elapses.  It runs `checkForPrompt id` exactly when the token
is still pending, i.e. was neither cleared nor already fired. -/
def fireTimer (s : DetectorState) (t : Nat) (id : String) : DetectorState :=
  if (t, id) ∈ s.pending then
    checkForPrompt { s with pending := s.pending.filter (fun p => p.1 != t) } id
  else s

/-- The `PromptDetector` constructor: empty maps, no trace, no timers, and
patterns built from the configured custom patterns. -/
def initDetector (defaults : List JsRegExp) (compile : String → Option SearchFn)
    (config : PromptDetectorConfig) : DetectorState :=
  { buffers := fun _ => none, timers := fun _ => none,
    waitingState := fun _ => none,
    patterns := buildPatterns defaults compile config.customPatterns,
    config := config, events := [], pending := [], nextTimer := 0 }

/-- The events a detector instance can experience: output chunks, user input,
a scheduled timer elapsing, session removal, and reconfiguration. -/
inductive DetectorEvent where
  | data (id : String) (chunk : List Char)
  | userInput (id : String)
  | fire (t : Nat) (id : String)
  | remove (id : String)
  | reconfig (c : PromptDetectorConfig)
deriving DecidableEq

/-- Dispatch one event. -/
def step (defaults : List JsRegExp) (compile : String → Option SearchFn)
    (s : DetectorState) : DetectorEvent → DetectorState
  | .data id chunk => onData s id chunk
  | .userInput id => onUserInput s id
  | .fire t id => fireTimer s t id
  | .remove id => removeTerminal s id
  | .reconfig c => updateConfig defaults compile s c

/-- Run a sequence of events. -/
def run (defaults : List JsRegExp) (compile : String → Option SearchFn)
    (s : DetectorState) (evs : List DetectorEvent) : DetectorState :=
  evs.foldl (step defaults compile) s

/-- The `TerminalState` registry of `media/main.ts`, parametric in the entry
type (`TerminalEntry` holds foreign `Terminal`, fit-addon and DOM objects). -/
structure TerminalState (α : Type) where
  terminals : String → Option α
  activeTerminalId : Option String

/-- A fresh `TerminalState`: both fields start empty. -/
def TerminalState.empty {α : Type} : TerminalState α :=
  { terminals := fun _ => none, activeTerminalId := none }

/-- `TerminalState.get`. -/
def TerminalState.get {α : Type} (s : TerminalState α) (id : String) : Option α :=
  s.terminals id

/-- `TerminalState.set`: `Map.prototype.set`, which inserts or replaces. -/
def TerminalState.set {α : Type} (s : TerminalState α) (id : String) (entry : α) :
    TerminalState α :=
  { s with terminals := fun x => if x = id then some entry else s.terminals x }

/-- `TerminalState.delete`. -/
def TerminalState.delete {α : Type} (s : TerminalState α) (id : String) :
    TerminalState α :=
  { s with terminals := fun x => if x = id then none else s.terminals x }

/-- `WebviewContext.createTerminalElement id`: builds DOM and `Terminal`
objects (external; passed in as `fresh`) and stores the entry under `id`
with `state.set` — no presence check of any kind. -/
def createTerminalElement {α : Type} (s : TerminalState α) (id : String)
    (fresh : α) : TerminalState α :=
  s.set id fresh

theorem updMap_self {α : Type} (m : String → Option α) (k : String) (v : Option α) :
    updMap m k v k = v := by
  simp [updMap]

theorem updMap_ne {α : Type} (m : String → Option α) {k x : String} (v : Option α)
    (h : x ≠ k) : updMap m k v x = m x := by
  simp [updMap, h]

theorem setWaitingState_buffers (s : DetectorState) (id : String) (w : Bool) :
    (setWaitingState s id w).buffers = s.buffers := by
  unfold setWaitingState
  split <;> rfl

theorem setWaitingState_timers (s : DetectorState) (id : String) (w : Bool) :
    (setWaitingState s id w).timers = s.timers := by
  unfold setWaitingState
  split <;> rfl

theorem setWaitingState_pending (s : DetectorState) (id : String) (w : Bool) :
    (setWaitingState s id w).pending = s.pending := by
  unfold setWaitingState
  split <;> rfl

theorem setWaitingState_nextTimer (s : DetectorState) (id : String) (w : Bool) :
    (setWaitingState s id w).nextTimer = s.nextTimer := by
  unfold setWaitingState
  split <;> rfl

theorem setWaitingState_patterns (s : DetectorState) (id : String) (w : Bool) :
    (setWaitingState s id w).patterns = s.patterns := by
  unfold setWaitingState
  split <;> rfl

theorem setWaitingState_config (s : DetectorState) (id : String) (w : Bool) :
    (setWaitingState s id w).config = s.config := by
  unfold setWaitingState
  split <;> rfl

theorem setWaitingState_getD (s : DetectorState) (id : String) (w : Bool) :
    ((setWaitingState s id w).waitingState id).getD false = w := by
  unfold setWaitingState
  by_cases h : (s.waitingState id).getD false = w
  · rw [if_neg (by simpa using h)]
    exact h
  · rw [if_pos (by simpa using h)]
    simp [updMap_self]

theorem setWaitingState_waitingState_ne (s : DetectorState) {id x : String} (w : Bool)
    (h : x ≠ id) : (setWaitingState s id w).waitingState x = s.waitingState x := by
  unfold setWaitingState
  split
  · simp [updMap_ne _ _ h]
  · rfl

theorem setWaitingState_events (s : DetectorState) (id : String) (w : Bool) :
    (setWaitingState s id w).events
      = s.events ++ (if (s.waitingState id).getD false = w then [] else [(id, w)]) := by
  unfold setWaitingState
  by_cases h : (s.waitingState id).getD false = w
  · rw [if_neg (by simpa using h), if_pos h]
    simp
  · rw [if_pos (by simpa using h), if_neg h]

theorem clearTimer_waitingState (s : DetectorState) (id : String) :
    (clearTimer s id).waitingState = s.waitingState := by
  unfold clearTimer
  cases s.timers id <;> rfl

theorem clearTimer_events (s : DetectorState) (id : String) :
    (clearTimer s id).events = s.events := by
  unfold clearTimer
  cases s.timers id <;> rfl

theorem clearTimer_buffers (s : DetectorState) (id : String) :
    (clearTimer s id).buffers = s.buffers := by
  unfold clearTimer
  cases s.timers id <;> rfl

theorem clearTimer_config (s : DetectorState) (id : String) :
    (clearTimer s id).config = s.config := by
  unfold clearTimer
  cases s.timers id <;> rfl

theorem clearTimer_patterns (s : DetectorState) (id : String) :
    (clearTimer s id).patterns = s.patterns := by
  unfold clearTimer
  cases s.timers id <;> rfl

theorem clearTimer_nextTimer (s : DetectorState) (id : String) :
    (clearTimer s id).nextTimer = s.nextTimer := by
  unfold clearTimer
  cases s.timers id <;> rfl

theorem clearTimer_pending_subset (s : DetectorState) (id : String) {p : Nat × String}
    (h : p ∈ (clearTimer s id).pending) : p ∈ s.pending := by
  unfold clearTimer at h
  revert h
  cases s.timers id with
  | none => exact fun h => h
  | some t => exact fun h => (List.mem_filter.mp h).1

theorem clearTimer_timers_self (s : DetectorState) (id : String) :
    (clearTimer s id).timers id = none := by
  unfold clearTimer
  cases hm : s.timers id with
  | none => exact hm
  | some t => simp [updMap_self]

theorem clearTimer_timers_ne (s : DetectorState) {id x : String} (h : x ≠ id) :
    (clearTimer s id).timers x = s.timers x := by
  unfold clearTimer
  cases s.timers id with
  | none => rfl
  | some t => simp [updMap_ne _ _ h]

theorem checkForPrompt_buffers (s : DetectorState) (id : String) :
    (checkForPrompt s id).buffers = s.buffers := by
  unfold checkForPrompt
  cases s.buffers id with
  | none => rfl
  | some b => simp [setWaitingState_buffers]

theorem checkForPrompt_timers (s : DetectorState) (id : String) :
    (checkForPrompt s id).timers = s.timers := by
  unfold checkForPrompt
  cases s.buffers id with
  | none => rfl
  | some b => simp [setWaitingState_timers]

theorem checkForPrompt_pending (s : DetectorState) (id : String) :
    (checkForPrompt s id).pending = s.pending := by
  unfold checkForPrompt
  cases s.buffers id with
  | none => rfl
  | some b => simp [setWaitingState_pending]

theorem checkForPrompt_nextTimer (s : DetectorState) (id : String) :
    (checkForPrompt s id).nextTimer = s.nextTimer := by
  unfold checkForPrompt
  cases s.buffers id with
  | none => rfl
  | some b => simp [setWaitingState_nextTimer]

theorem checkForPrompt_config (s : DetectorState) (id : String) :
    (checkForPrompt s id).config = s.config := by
  unfold checkForPrompt
  cases s.buffers id with
  | none => rfl
  | some b => simp [setWaitingState_config]

theorem checkForPrompt_waitingState_ne (s : DetectorState) {id x : String}
    (h : x ≠ id) :
    (checkForPrompt s id).waitingState x = s.waitingState x := by
  unfold checkForPrompt
  cases s.buffers id with
  | none => rfl
  | some b => simp [setWaitingState_waitingState_ne _ _ h]

theorem checkForPrompt_events (s : DetectorState) (id : String) :
    (checkForPrompt s id).events = s.events
    ∨ ∃ w, (checkForPrompt s id).events = s.events ++ [(id, w)] := by
  unfold checkForPrompt
  cases s.buffers id with
  | none => exact Or.inl rfl
  | some b =>
    simp only [setWaitingState_events]
    split
    · exact Or.inl (by simp)
    · exact Or.inr ⟨_, rfl⟩

theorem appendBuf_waitingState (s : DetectorState) (id : String) (d : List Char) :
    (appendBuf s id d).waitingState = s.waitingState := rfl

theorem appendBuf_events (s : DetectorState) (id : String) (d : List Char) :
    (appendBuf s id d).events = s.events := rfl

theorem appendBuf_timers (s : DetectorState) (id : String) (d : List Char) :
    (appendBuf s id d).timers = s.timers := rfl

theorem appendBuf_pending (s : DetectorState) (id : String) (d : List Char) :
    (appendBuf s id d).pending = s.pending := rfl

theorem appendBuf_nextTimer (s : DetectorState) (id : String) (d : List Char) :
    (appendBuf s id d).nextTimer = s.nextTimer := rfl

theorem appendBuf_config (s : DetectorState) (id : String) (d : List Char) :
    (appendBuf s id d).config = s.config := rfl

theorem sched_waitingState (s : DetectorState) (id : String) :
    (sched s id).waitingState = s.waitingState := rfl

theorem sched_events (s : DetectorState) (id : String) :
    (sched s id).events = s.events := rfl

theorem sched_buffers (s : DetectorState) (id : String) :
    (sched s id).buffers = s.buffers := rfl

theorem sched_config (s : DetectorState) (id : String) :
    (sched s id).config = s.config := rfl

theorem setWaitingState_self_of_ne (s : DetectorState) (id : String) (w : Bool)
    (h : (s.waitingState id).getD false ≠ w) :
    (setWaitingState s id w).waitingState id = some w := by
  unfold setWaitingState
  rw [if_pos h]
  simp [updMap_self]

theorem clearBuf_waitingState (s : DetectorState) (id : String) :
    (clearBuf s id).waitingState = s.waitingState := by
  unfold clearBuf
  cases s.buffers id <;> rfl

theorem clearBuf_events (s : DetectorState) (id : String) :
    (clearBuf s id).events = s.events := by
  unfold clearBuf
  cases s.buffers id <;> rfl

theorem clearBuf_timers (s : DetectorState) (id : String) :
    (clearBuf s id).timers = s.timers := by
  unfold clearBuf
  cases s.buffers id <;> rfl

theorem clearBuf_pending (s : DetectorState) (id : String) :
    (clearBuf s id).pending = s.pending := by
  unfold clearBuf
  cases s.buffers id <;> rfl

theorem clearBuf_nextTimer (s : DetectorState) (id : String) :
    (clearBuf s id).nextTimer = s.nextTimer := by
  unfold clearBuf
  cases s.buffers id <;> rfl

theorem clearBuf_config (s : DetectorState) (id : String) :
    (clearBuf s id).config = s.config := by
  unfold clearBuf
  cases s.buffers id <;> rfl

theorem clearBuf_patterns (s : DetectorState) (id : String) :
    (clearBuf s id).patterns = s.patterns := by
  unfold clearBuf
  cases s.buffers id <;> rfl

theorem onUserInput_core (s : DetectorState) (id : String) :
    (onUserInput s id).waitingState id
        = (setWaitingState (clearTimer s id) id false).waitingState id
    ∧ (onUserInput s id).events = (setWaitingState (clearTimer s id) id false).events := by
  unfold onUserInput
  rw [clearBuf_waitingState, clearBuf_events]
  exact ⟨rfl, rfl⟩

/-- C10: when the configuration has `enabled = false`, `onData` is a complete
no-op: the returned state is the input state, so no buffer is created or
appended, no timer is cancelled or scheduled, every recorded wait state is
unchanged and no notification is emitted; in particular a `Waiting` session
stays `Waiting` despite the new output. -/
theorem c10_disabled_noop (s : DetectorState) (id : String) (d : List Char)
    (h : s.config.enabled = false) :
    onData s id d = s
    ∧ (onData s id d).buffers = s.buffers
    ∧ (onData s id d).timers = s.timers
    ∧ (onData s id d).pending = s.pending
    ∧ (onData s id d).events = s.events
    ∧ (s.waitingState id = some true → (onData s id d).waitingState id = some true) := by
  have he : onData s id d = s := by
    unfold onData
    rw [if_pos h]
  refine ⟨he, by rw [he], by rw [he], by rw [he], by rw [he], fun hw => by rw [he]; exact hw⟩

/-- Concrete example: a disabled detector with terminal `t1` in the waiting
state. -/
def exStateOff : DetectorState :=
  { buffers := fun _ => none, timers := fun _ => none,
    waitingState := fun x => if x = "t1" then some true else none,
    patterns := [],
    config := { enabled := false, showDelay := 1000, customPatterns := [] },
    events := [], pending := [], nextTimer := 0 }

/-- C10 witness at a concrete disabled state. -/
theorem c10_disabled_noop_witness :
    exStateOff.config.enabled = false
    ∧ onData exStateOff "t1" ['a'] = exStateOff
    ∧ (onData exStateOff "t1" ['a']).waitingState "t1" = some true :=
  ⟨rfl, (c10_disabled_noop exStateOff "t1" ['a'] rfl).1,
    (c10_disabled_noop exStateOff "t1" ['a'] rfl).2.2.2.2.2 (by decide)⟩

/-- C1: while a session is `Waiting`, `onData` (with the classifier enabled)
and `onUserInput` both force the state to not-waiting synchronously within
the call and emit exactly one `(id, false)` notification; and `onData` never
raises a session to `Waiting` within the call — the show transition happens
only in the deferred timer callback. -/
theorem c1_immediate_hide (s : DetectorState) (id : String) (d : List Char) :
    (s.config.enabled = true → (s.waitingState id).getD false = true →
      (onData s id d).waitingState id = some false
      ∧ (onData s id d).events = s.events ++ [(id, false)])
    ∧ ((s.waitingState id).getD false = true →
      (onUserInput s id).waitingState id = some false
      ∧ (onUserInput s id).events = s.events ++ [(id, false)])
    ∧ (∀ x, (onData s id d).waitingState x = some true
        → s.waitingState x = some true) := by
  refine ⟨?_, ?_, ?_⟩
  · intro h1 h2
    unfold onData
    rw [if_neg (by simp [h1])]
    have hw : ((clearTimer (appendBuf s id d) id).waitingState id).getD false = true := by
      rw [clearTimer_waitingState, appendBuf_waitingState]
      exact h2
    unfold hideIfWaiting
    rw [if_pos hw]
    constructor
    · rw [show ∀ s' : DetectorState, (sched s' id).waitingState = s'.waitingState
          from fun _ => rfl]
      exact setWaitingState_self_of_ne _ _ _ (by rw [hw]; simp)
    · rw [show ∀ s' : DetectorState, (sched s' id).events = s'.events from fun _ => rfl,
        setWaitingState_events, clearTimer_events, appendBuf_events, hw]
      simp
  · intro h2
    have hw : ((clearTimer s id).waitingState id).getD false = true := by
      rw [clearTimer_waitingState]
      exact h2
    refine ⟨?_, ?_⟩
    · rw [(onUserInput_core s id).1]
      exact setWaitingState_self_of_ne _ _ _ (by rw [hw]; simp)
    · rw [(onUserInput_core s id).2, setWaitingState_events, clearTimer_events, hw]
      simp
  · intro x hx
    unfold onData at hx
    by_cases he : s.config.enabled = false
    · rw [if_pos he] at hx
      exact hx
    · rw [if_neg he] at hx
      rw [sched_waitingState] at hx
      unfold hideIfWaiting at hx
      split at hx
      · rename_i hcond
        by_cases hxid : x = id
        · subst hxid
          rw [setWaitingState_self_of_ne _ _ _ (by rw [hcond]; simp)] at hx
          cases hx
        · rw [setWaitingState_waitingState_ne _ _ hxid, clearTimer_waitingState,
            appendBuf_waitingState] at hx
          exact hx
      · rw [clearTimer_waitingState, appendBuf_waitingState] at hx
        exact hx

/-- Concrete example: an enabled detector with terminal `t1` in the waiting
state and a pending timer with token 7. -/
def exStateOn : DetectorState :=
  { buffers := fun x => if x = "t1" then some { buffer := ['>', ' '], maxSize := 500 } else none,
    timers := fun x => if x = "t1" then some 7 else none,
    waitingState := fun x => if x = "t1" then some true else none,
    patterns := [],
    config := { enabled := true, showDelay := 1000, customPatterns := [] },
    events := [], pending := [(7, "t1")], nextTimer := 8 }

/-- C1 witness at a concrete waiting state. -/
theorem c1_immediate_hide_witness :
    ((onData exStateOn "t1" ['a']).waitingState "t1" = some false
      ∧ (onData exStateOn "t1" ['a']).events = exStateOn.events ++ [("t1", false)])
    ∧ ((onUserInput exStateOn "t1").waitingState "t1" = some false
      ∧ (onUserInput exStateOn "t1").events = exStateOn.events ++ [("t1", false)]) :=
  ⟨(c1_immediate_hide exStateOn "t1" ['a']).1 rfl (by decide),
    (c1_immediate_hide exStateOn "t1" ['a']).2.1 (by decide)⟩

/-- C9 counterexample: creating a second session under the id `"a"`, already
present in the registry, raises no error — `createTerminalElement` is total —
and the existing record is replaced by the new entry rather than left
unchanged, refuting the claimed DuplicateSession failure. -/
theorem c9_duplicate_create_counterexample :
    (createTerminalElement (createTerminalElement (TerminalState.empty (α := Nat)) "a" 10)
        "a" 20).get "a" = some 20
    ∧ (createTerminalElement (createTerminalElement (TerminalState.empty (α := Nat)) "a" 10)
        "a" 20).get "a" ≠ some 10 := by
  constructor
  · simp [createTerminalElement, TerminalState.set, TerminalState.get, TerminalState.empty]
  · simp [createTerminalElement, TerminalState.set, TerminalState.get, TerminalState.empty]

/-- C9 amended: creating a session with an id already present in the registry
raises no error; the new entry replaces the existing record (`Map.set`
semantics — last write wins) and every other id's record is unchanged. -/
theorem c9_duplicate_create_overwrites {α : Type} (s : TerminalState α) (id : String)
    (entry : α) :
    (createTerminalElement s id entry).get id = some entry
    ∧ ∀ x, x ≠ id → (createTerminalElement s id entry).get x = s.get x := by
  constructor
  · simp [createTerminalElement, TerminalState.set, TerminalState.get]
  · intro x hx
    simp [createTerminalElement, TerminalState.set, TerminalState.get, hx]

/-- C9 amended witness at concrete ids. -/
theorem c9_duplicate_create_overwrites_witness :
    (createTerminalElement (TerminalState.empty (α := Nat)) "a" 10).get "a" = some 10
    ∧ (createTerminalElement (TerminalState.empty (α := Nat)) "a" 10).get "b"
        = (TerminalState.empty (α := Nat)).get "b" :=
  ⟨(c9_duplicate_create_overwrites (TerminalState.empty (α := Nat)) "a" 10).1,
    (c9_duplicate_create_overwrites (TerminalState.empty (α := Nat)) "a" 10).2 "b"
      (by decide)⟩

theorem buildPatterns_eq (defaults : List JsRegExp) (compile : String → Option SearchFn)
    (customPatterns : List String) :
    buildPatterns defaults compile customPatterns
      = defaults ++ customPatterns.filterMap
          (fun p => (compile p).map
            (fun f => { search := f, global := false, lastIndex := 0 })) := by
  unfold buildPatterns
  induction customPatterns generalizing defaults with
  | nil => simp
  | cons p ps ih =>
    cases hc : compile p with
    | none =>
      simp only [List.foldl_cons, List.filterMap_cons, hc, Option.map_none']
      exact ih defaults
    | some f =>
      simp only [List.foldl_cons, List.filterMap_cons, hc, Option.map_some']
      rw [ih]
      simp

/-- C6: a custom pattern string that fails to compile is dropped silently —
`buildPatterns` is a total function, the failing string contributes nothing
to the result, and the active set is exactly the built-in defaults followed
by the compiled forms of the custom patterns that do compile, in order;
`updateConfig` installs exactly that set. -/
theorem c6_invalid_patterns_dropped (defaults : List JsRegExp)
    (compile : String → Option SearchFn) (customPatterns : List String) :
    (buildPatterns defaults compile customPatterns
      = defaults ++ customPatterns.filterMap
          (fun p => (compile p).map
            (fun f => { search := f, global := false, lastIndex := 0 })))
    ∧ (∀ pre p post, compile p = none →
        buildPatterns defaults compile (pre ++ p :: post)
          = buildPatterns defaults compile (pre ++ post))
    ∧ (∀ (s : DetectorState) (c : PromptDetectorConfig),
        (updateConfig defaults compile s c).patterns
            = buildPatterns defaults compile c.customPatterns
        ∧ (updateConfig defaults compile s c).config = c) := by
  refine ⟨buildPatterns_eq defaults compile customPatterns, ?_, fun s c => ⟨rfl, rfl⟩⟩
  intro pre p post hp
  rw [buildPatterns_eq, buildPatterns_eq]
  simp [List.filterMap_append, List.filterMap_cons, hp]

/-- C6 witness: one invalid pattern among two is dropped. -/
theorem c6_invalid_patterns_dropped_witness :
    buildPatterns [] (fun p => if p = "ok" then some (fun _ _ => none) else none)
        (["ok"] ++ "bad" :: ["ok"])
      = buildPatterns [] (fun p => if p = "ok" then some (fun _ _ => none) else none)
        (["ok"] ++ ["ok"]) :=
  (c6_invalid_patterns_dropped [] (fun p => if p = "ok" then some (fun _ _ => none) else none)
      []).2.1 ["ok"] "bad" ["ok"] (by simp)

theorem someTest_fst (ps : List JsRegExp) (x : List Char) :
    (someTest ps x).1 = ps.any (fun r => (JsRegExp.test r x).1) := by
  induction ps with
  | nil => rfl
  | cons r rs ih =>
    unfold someTest
    by_cases hb : (JsRegExp.test r x).1 = true
    · simp [hb]
    · simp [hb, ih]

theorem any_of_perm {l1 l2 : List JsRegExp} (h : l1.Perm l2) (p : JsRegExp → Bool) :
    l1.any p = l2.any p := by
  rw [List.any_eq, List.any_eq]
  exact decide_eq_decide.mpr
    ⟨fun ⟨a, ha, hp⟩ => ⟨a, h.mem_iff.mp ha, hp⟩,
      fun ⟨a, ha, hp⟩ => ⟨a, h.mem_iff.mpr ha, hp⟩⟩

theorem someTest_nonGlobal (ps : List JsRegExp) (hps : ∀ r ∈ ps, r.global = false)
    (x : List Char) :
    someTest ps x = (ps.any (fun r => (r.search 0 x).isSome), ps) := by
  induction ps with
  | nil => rfl
  | cons r rs ih =>
    have hr : r.global = false := hps r (List.mem_cons_self r rs)
    have hrs : ∀ a ∈ rs, a.global = false := fun a ha => hps a (List.mem_cons_of_mem r ha)
    by_cases hb : (r.search 0 x).isSome = true
    · simp [someTest, JsRegExp.test, hr, hb]
    · simp [someTest, JsRegExp.test, hr, hb, ih hrs]

theorem buildPatterns_nonGlobal (defaults : List JsRegExp)
    (compile : String → Option SearchFn) (custom : List String)
    (hd : ∀ r ∈ defaults, r.global = false) :
    ∀ r ∈ buildPatterns defaults compile custom, r.global = false := by
  intro r hr
  rw [buildPatterns_eq] at hr
  rcases List.mem_append.mp hr with h | h
  · exact hd r h
  · rcases List.mem_filterMap.mp h with ⟨p, _, hmap⟩
    rcases Option.map_eq_some'.mp hmap with ⟨f, _, hEq⟩
    rw [← hEq]

/-- C7: an evaluation strips ANSI control sequences from the full buffer
content, keeps only the trailing 200 characters, and computes the disjunction
of all pattern tests against that tail; the boolean outcome is invariant
under every permutation of the pattern set, and the wait state recorded by
`checkForPrompt` is exactly this boolean. -/
theorem c7_evaluation_tail_or_perm (ps ps2 : List JsRegExp) (content : List Char)
    (hperm : ps.Perm ps2) :
    (computeIsWaiting ps content
        = ps.any (fun r => (JsRegExp.test r (jsSliceLast (stripAnsi content) 200)).1))
    ∧ computeIsWaiting ps content = computeIsWaiting ps2 content
    ∧ (∀ (s : DetectorState) (id : String) (b : PromptBuffer),
        s.buffers id = some b → s.patterns = ps →
        ((checkForPrompt s id).waitingState id).getD false
          = computeIsWaiting ps b.getContent) := by
  refine ⟨someTest_fst ps _, ?_, ?_⟩
  · unfold computeIsWaiting
    rw [someTest_fst, someTest_fst]
    exact any_of_perm hperm _
  · intro s id b hb hps
    unfold checkForPrompt
    rw [hb]
    dsimp only
    rw [setWaitingState_getD, hps]
    rfl

/-- A pattern that matches everywhere. -/
def exRegYes : JsRegExp := { search := fun _ _ => some 0, global := false, lastIndex := 0 }

/-- A pattern that matches nowhere. -/
def exRegNo : JsRegExp := { search := fun _ _ => none, global := false, lastIndex := 0 }

/-- C7 witness: swapping two concrete patterns leaves the boolean unchanged. -/
theorem c7_evaluation_tail_or_perm_witness :
    computeIsWaiting [exRegYes, exRegNo] ['a']
      = computeIsWaiting [exRegNo, exRegYes] ['a'] :=
  (c7_evaluation_tail_or_perm [exRegYes, exRegNo] [exRegNo, exRegYes] ['a']
    (List.Perm.swap exRegNo exRegYes [])).2.1

/-- C8: with any pattern set the program can build (the built-in literals
carry no `g` flag and `new RegExp(p)` without flags yields a non-global
regex), `test` neither reads nor writes any hidden state: one evaluation
leaves every pattern object unchanged and computes the pure disjunction of
the individual searches, so evaluating a second time on the same buffer
content yields the identical boolean. -/
theorem c8_pure_evaluation (defaults : List JsRegExp)
    (compile : String → Option SearchFn) (custom : List String) (content : List Char)
    (hd : ∀ r ∈ defaults, r.global = false) :
    (someTest (buildPatterns defaults compile custom) content).2
        = buildPatterns defaults compile custom
    ∧ (someTest (buildPatterns defaults compile custom) content).1
        = (buildPatterns defaults compile custom).any (fun r => (r.search 0 content).isSome)
    ∧ (someTest (someTest (buildPatterns defaults compile custom) content).2 content).1
        = (someTest (buildPatterns defaults compile custom) content).1 := by
  have hng := buildPatterns_nonGlobal defaults compile custom hd
  have h := someTest_nonGlobal _ hng content
  refine ⟨by rw [h], by rw [h], ?_⟩
  conv_lhs => rw [h]

/-- C8 witness at a concrete one-pattern set. -/
theorem c8_pure_evaluation_witness :
    (someTest (someTest (buildPatterns [exRegYes] (fun _ => none) []) ['a']).2 ['a']).1
      = (someTest (buildPatterns [exRegYes] (fun _ => none) []) ['a']).1 :=
  (c8_pure_evaluation [exRegYes] (fun _ => none) [] ['a']
    (by intro r hr; simp at hr; subst hr; rfl)).2.2

theorem checkForPrompt_events_eq (s : DetectorState) (id : String) (b : PromptBuffer)
    (hb : s.buffers id = some b) :
    (checkForPrompt s id).events
      = s.events ++
        (if (s.waitingState id).getD false = computeIsWaiting s.patterns b.getContent
         then [] else [(id, computeIsWaiting s.patterns b.getContent)]) := by
  unfold checkForPrompt
  rw [hb]
  dsimp only
  rw [setWaitingState_events]
  rfl

/-- C4: `checkForPrompt` emits a notification if and only if the freshly
computed wait state differs from the recorded one — exactly one `(id, state)`
event when it differs, none when it matches (and none when the session has no
buffer); and a second consecutive evaluation that computes the same state
emits nothing further. -/
theorem c4_emit_iff_changed (s : DetectorState) (id : String) :
    (∀ b, s.buffers id = some b →
      (checkForPrompt s id).events
        = s.events ++
          (if (s.waitingState id).getD false = computeIsWaiting s.patterns b.getContent
           then [] else [(id, computeIsWaiting s.patterns b.getContent)]))
    ∧ (s.buffers id = none → (checkForPrompt s id).events = s.events)
    ∧ (∀ b, s.buffers id = some b → (∀ r ∈ s.patterns, r.global = false) →
        (checkForPrompt (checkForPrompt s id) id).events
          = (checkForPrompt s id).events) := by
  refine ⟨fun b hb => checkForPrompt_events_eq s id b hb, ?_, ?_⟩
  · intro hb
    unfold checkForPrompt
    rw [hb]
  · intro b hb hng
    have hs1b : (checkForPrompt s id).buffers id = some b := by
      rw [checkForPrompt_buffers]
      exact hb
    have hpat : (checkForPrompt s id).patterns = s.patterns := by
      unfold checkForPrompt
      rw [hb]
      dsimp only
      rw [setWaitingState_patterns]
      dsimp only
      rw [someTest_nonGlobal s.patterns hng]
    have hw : ((checkForPrompt s id).waitingState id).getD false
        = computeIsWaiting s.patterns b.getContent := by
      unfold checkForPrompt
      rw [hb]
      dsimp only
      rw [setWaitingState_getD]
      rfl
    rw [checkForPrompt_events_eq (checkForPrompt s id) id b hs1b, hpat, hw, if_pos rfl]
    simp

/-- C4 witness: at a concrete waiting state whose evaluation computes
not-waiting, exactly one `(id, false)` event is emitted. -/
theorem c4_emit_iff_changed_witness :
    (checkForPrompt exStateOn "t1").events = exStateOn.events ++ [("t1", false)] := by
  have h := (c4_emit_iff_changed exStateOn "t1").1
    { buffer := ['>', ' '], maxSize := 500 } (by decide)
  rw [h]
  decide

/-- Consistency of the timer state, maintained by every detector operation:
every pending token is the one recorded in the `timers` map for its terminal,
pending tokens are pairwise distinct, and all issued tokens are below the
fresh counter. -/
def TimerInv (s : DetectorState) : Prop :=
  (∀ p ∈ s.pending, s.timers p.2 = some p.1)
  ∧ (s.pending.map Prod.fst).Nodup
  ∧ (∀ p ∈ s.pending, p.1 < s.nextTimer)
  ∧ (∀ id t, s.timers id = some t → t < s.nextTimer)

theorem timerInv_of_eq {s s' : DetectorState} (h : TimerInv s)
    (hp : s'.pending = s.pending) (ht : s'.timers = s.timers)
    (hn : s'.nextTimer = s.nextTimer) : TimerInv s' := by
  obtain ⟨h1, h2, h3, h4⟩ := h
  refine ⟨?_, ?_, ?_, ?_⟩
  · intro p hpm
    rw [ht]
    exact h1 p (hp ▸ hpm)
  · rw [hp]
    exact h2
  · intro p hpm
    rw [hn]
    exact h3 p (hp ▸ hpm)
  · intro id t htt
    rw [hn]
    exact h4 id t (ht ▸ htt)

theorem timerInv_clearTimer (s : DetectorState) (id : String) (h : TimerInv s) :
    TimerInv (clearTimer s id) := by
  obtain ⟨h1, h2, h3, h4⟩ := h
  unfold clearTimer
  cases hm : s.timers id with
  | none => exact ⟨h1, h2, h3, h4⟩
  | some t =>
    refine ⟨?_, ?_, ?_, ?_⟩
    · intro p hp
      have hmem := List.mem_filter.mp hp
      have hne : p.1 ≠ t := by simpa using hmem.2
      by_cases hid : p.2 = id
      · exfalso
        apply hne
        have hpt := h1 p hmem.1
        rw [hid, hm] at hpt
        exact (Option.some_inj.mp hpt).symm
      · show updMap s.timers id none p.2 = some p.1
        rw [updMap_ne _ _ hid]
        exact h1 p hmem.1
    · exact List.Nodup.sublist ((List.filter_sublist _).map Prod.fst) h2
    · intro p hp
      exact h3 p (List.mem_filter.mp hp).1
    · intro id' t' ht'
      by_cases hid : id' = id
      · rw [show (({ s with
              pending := s.pending.filter (fun p => p.1 != t),
              timers := updMap s.timers id none } : DetectorState)).timers
            = updMap s.timers id none from rfl, hid, updMap_self] at ht'
        cases ht'
      · rw [show (({ s with
              pending := s.pending.filter (fun p => p.1 != t),
              timers := updMap s.timers id none } : DetectorState)).timers
            = updMap s.timers id none from rfl, updMap_ne _ _ hid] at ht'
        exact h4 id' t' ht'

theorem timerInv_sched (s : DetectorState) (id : String) (h : TimerInv s)
    (hid : s.timers id = none) : TimerInv (sched s id) := by
  obtain ⟨h1, h2, h3, h4⟩ := h
  refine ⟨?_, ?_, ?_, ?_⟩
  · intro p hp
    rcases List.mem_append.mp hp with hold | hnew
    · by_cases hpid : p.2 = id
      · exfalso
        have hpt := h1 p hold
        rw [hpid, hid] at hpt
        cases hpt
      · show updMap s.timers id (some s.nextTimer) p.2 = some p.1
        rw [updMap_ne _ _ hpid]
        exact h1 p hold
    · have hpe : p = (s.nextTimer, id) := by simpa using hnew
      rw [hpe]
      show updMap s.timers id (some s.nextTimer) id = some s.nextTimer
      rw [updMap_self]
  · show ((s.pending ++ [(s.nextTimer, id)]).map Prod.fst).Nodup
    rw [List.map_append]
    refine List.Nodup.append h2 (by simp) ?_
    intro a ha hb
    simp only [List.map_cons, List.map_nil, List.mem_singleton] at hb
    subst hb
    rcases List.mem_map.mp ha with ⟨p, hp, hpa⟩
    exact absurd (hpa ▸ h3 p hp) (lt_irrefl _)
  · intro p hp
    rcases List.mem_append.mp hp with hold | hnew
    · exact Nat.lt_succ_of_lt (h3 p hold)
    · have hpe : p = (s.nextTimer, id) := by simpa using hnew
      rw [hpe]
      exact Nat.lt_succ_self _
  · intro id' t' ht'
    by_cases hpid : id' = id
    · rw [show (sched s id).timers = updMap s.timers id (some s.nextTimer) from rfl,
        hpid, updMap_self] at ht'
      rw [← Option.some_inj.mp ht']
      exact Nat.lt_succ_self _
    · rw [show (sched s id).timers = updMap s.timers id (some s.nextTimer) from rfl,
        updMap_ne _ _ hpid] at ht'
      exact Nat.lt_succ_of_lt (h4 id' t' ht')

theorem hideIfWaiting_pending (s : DetectorState) (id : String) :
    (hideIfWaiting s id).pending = s.pending := by
  unfold hideIfWaiting
  split
  · exact setWaitingState_pending s id false
  · rfl

theorem hideIfWaiting_timers (s : DetectorState) (id : String) :
    (hideIfWaiting s id).timers = s.timers := by
  unfold hideIfWaiting
  split
  · exact setWaitingState_timers s id false
  · rfl

theorem hideIfWaiting_nextTimer (s : DetectorState) (id : String) :
    (hideIfWaiting s id).nextTimer = s.nextTimer := by
  unfold hideIfWaiting
  split
  · exact setWaitingState_nextTimer s id false
  · rfl

theorem hideIfWaiting_buffers (s : DetectorState) (id : String) :
    (hideIfWaiting s id).buffers = s.buffers := by
  unfold hideIfWaiting
  split
  · exact setWaitingState_buffers s id false
  · rfl

theorem hideIfWaiting_config (s : DetectorState) (id : String) :
    (hideIfWaiting s id).config = s.config := by
  unfold hideIfWaiting
  split
  · exact setWaitingState_config s id false
  · rfl

theorem timerInv_onData (s : DetectorState) (id : String) (d : List Char)
    (h : TimerInv s) : TimerInv (onData s id d) := by
  unfold onData
  by_cases he : s.config.enabled = false
  · rw [if_pos he]
    exact h
  · rw [if_neg he]
    have h1 : TimerInv (appendBuf s id d) := timerInv_of_eq h rfl rfl rfl
    have h2 := timerInv_clearTimer _ id h1
    have h3 : TimerInv (hideIfWaiting (clearTimer (appendBuf s id d) id) id) :=
      timerInv_of_eq h2 (hideIfWaiting_pending _ _) (hideIfWaiting_timers _ _)
        (hideIfWaiting_nextTimer _ _)
    have hid : (hideIfWaiting (clearTimer (appendBuf s id d) id) id).timers id = none := by
      rw [hideIfWaiting_timers]
      exact clearTimer_timers_self _ _
    exact timerInv_sched _ _ h3 hid

theorem timerInv_onUserInput (s : DetectorState) (id : String) (h : TimerInv s) :
    TimerInv (onUserInput s id) := by
  unfold onUserInput
  have h2 := timerInv_clearTimer s id h
  have h3 : TimerInv (setWaitingState (clearTimer s id) id false) :=
    timerInv_of_eq h2 (setWaitingState_pending _ _ _) (setWaitingState_timers _ _ _)
      (setWaitingState_nextTimer _ _ _)
  exact timerInv_of_eq h3 (clearBuf_pending _ _) (clearBuf_timers _ _)
    (clearBuf_nextTimer _ _)

theorem timerInv_checkForPrompt (s : DetectorState) (id : String) (h : TimerInv s) :
    TimerInv (checkForPrompt s id) :=
  timerInv_of_eq h (checkForPrompt_pending _ _) (checkForPrompt_timers _ _)
    (checkForPrompt_nextTimer _ _)

theorem timerInv_fireTimer (s : DetectorState) (t : Nat) (id : String)
    (h : TimerInv s) : TimerInv (fireTimer s t id) := by
  obtain ⟨h1, h2, h3, h4⟩ := h
  unfold fireTimer
  split
  · apply timerInv_checkForPrompt
    refine ⟨?_, ?_, ?_, ?_⟩
    · intro p hp
      exact h1 p (List.mem_filter.mp hp).1
    · exact List.Nodup.sublist ((List.filter_sublist _).map Prod.fst) h2
    · intro p hp
      exact h3 p (List.mem_filter.mp hp).1
    · exact h4
  · exact ⟨h1, h2, h3, h4⟩

theorem timerInv_removeTerminal (s : DetectorState) (id : String) (h : TimerInv s) :
    TimerInv (removeTerminal s id) := by
  unfold removeTerminal
  have h2 := timerInv_clearTimer s id h
  exact timerInv_of_eq h2 rfl rfl rfl

theorem timerInv_step (defaults : List JsRegExp) (compile : String → Option SearchFn)
    (s : DetectorState) (e : DetectorEvent) (h : TimerInv s) :
    TimerInv (step defaults compile s e) := by
  cases e with
  | data id chunk => exact timerInv_onData s id chunk h
  | userInput id => exact timerInv_onUserInput s id h
  | fire t id => exact timerInv_fireTimer s t id h
  | remove id => exact timerInv_removeTerminal s id h
  | reconfig c => exact timerInv_of_eq h rfl rfl rfl

theorem timerInv_init (defaults : List JsRegExp) (compile : String → Option SearchFn)
    (cfg : PromptDetectorConfig) : TimerInv (initDetector defaults compile cfg) := by
  refine ⟨?_, ?_, ?_, ?_⟩
  · intro p hp
    cases hp
  · exact List.nodup_nil
  · intro p hp
    cases hp
  · intro id t ht
    cases ht

theorem timerInv_run (defaults : List JsRegExp) (compile : String → Option SearchFn)
    (s : DetectorState) (evs : List DetectorEvent) (h : TimerInv s) :
    TimerInv (run defaults compile s evs) := by
  induction evs generalizing s with
  | nil => exact h
  | cons e es ih => exact ih _ (timerInv_step defaults compile s e h)

theorem length_le_one_of_all_eq {α : Type} {l : List α} (hnd : l.Nodup)
    (x : α) (he : ∀ a ∈ l, a = x) : l.length ≤ 1 := by
  cases l with
  | nil => simp
  | cons a l2 =>
    cases l2 with
    | nil => simp
    | cons b l3 =>
      exfalso
      have ha := he a (by simp)
      have hb := he b (by simp)
      rw [List.nodup_cons] at hnd
      exact hnd.1 (by rw [ha, hb.symm]; exact List.mem_cons_self b l3)

theorem pending_count_le_one (s : DetectorState) (h : TimerInv s) (id : String) :
    s.pending.countP (fun p => p.2 == id) ≤ 1 := by
  obtain ⟨h1, h2, _, _⟩ := h
  rw [List.countP_eq_length_filter]
  have hpnd : s.pending.Nodup := List.Nodup.of_map Prod.fst h2
  rcases hf : s.pending.filter (fun p => p.2 == id) with _ | ⟨a, l⟩
  · rw [hf]
    simp
  · have hall : ∀ p ∈ a :: l, p.2 = id ∧ p ∈ s.pending := by
      intro q hq
      have hq2 := List.mem_filter.mp (hf ▸ hq)
      exact ⟨by simpa using hq2.2, hq2.1⟩
    have hnd : (a :: l).Nodup := hf ▸ List.Nodup.filter _ hpnd
    rw [hf]
    refine length_le_one_of_all_eq hnd a ?_
    intro p hp
    obtain ⟨hp2, hpP⟩ := hall p hp
    obtain ⟨ha2, haP⟩ := hall a (by simp)
    have hpt := h1 p hpP
    have hat := h1 a haP
    rw [hp2] at hpt
    rw [ha2] at hat
    rw [hpt] at hat
    exact Prod.ext (Option.some_inj.mp hat) (hp2.trans ha2.symm)

theorem clearTimer_pending_of_some (s : DetectorState) (id : String) (t : Nat)
    (h : s.timers id = some t) :
    (clearTimer s id).pending = s.pending.filter (fun p => p.1 != t) := by
  unfold clearTimer
  rw [h]

theorem onData_pending_eq (s : DetectorState) (id : String) (d : List Char)
    (he : ¬s.config.enabled = false) :
    (onData s id d).pending
      = (clearTimer (appendBuf s id d) id).pending
          ++ [((clearTimer (appendBuf s id d) id).nextTimer, id)] := by
  unfold onData
  rw [if_neg he]
  show (hideIfWaiting (clearTimer (appendBuf s id d) id) id).pending
      ++ [((hideIfWaiting (clearTimer (appendBuf s id d) id) id).nextTimer, id)] = _
  rw [hideIfWaiting_pending, hideIfWaiting_nextTimer]

/-- C3: in every reachable detector state, at most one evaluation timer is
pending for any session; moreover an `onData` call on an enabled detector
with a recorded timer handle cancels that token — it is absent from the
resulting pending pool, so it can never fire — and leaves exactly one pending
timer for the session, the freshly scheduled one. -/
theorem c3_single_pending_timer (defaults : List JsRegExp)
    (compile : String → Option SearchFn) (cfg : PromptDetectorConfig)
    (evs : List DetectorEvent) (id : String) :
    (run defaults compile (initDetector defaults compile cfg) evs).pending.countP
        (fun p => p.2 == id) ≤ 1
    ∧ (∀ d t,
        (run defaults compile (initDetector defaults compile cfg) evs).config.enabled = true →
        (run defaults compile (initDetector defaults compile cfg) evs).timers id = some t →
        (t, id) ∉
            (onData (run defaults compile (initDetector defaults compile cfg) evs) id d).pending
          ∧ (onData (run defaults compile (initDetector defaults compile cfg) evs) id
              d).pending.countP (fun p => p.2 == id) = 1) := by
  have hinv : TimerInv (run defaults compile (initDetector defaults compile cfg) evs) :=
    timerInv_run defaults compile _ evs (timerInv_init defaults compile cfg)
  set s := run defaults compile (initDetector defaults compile cfg) evs with hs
  obtain ⟨h1, h2, h3, h4⟩ := hinv
  refine ⟨pending_count_le_one s ⟨h1, h2, h3, h4⟩ id, ?_⟩
  intro d t he ht
  have he' : ¬s.config.enabled = false := by rw [he]; simp
  have hta : (appendBuf s id d).timers id = some t := ht
  have hpe := onData_pending_eq s id d he'
  rw [clearTimer_pending_of_some _ id t hta] at hpe
  have hfp : (appendBuf s id d).pending = s.pending := rfl
  rw [hfp] at hpe
  have hnt : (clearTimer (appendBuf s id d) id).nextTimer = s.nextTimer := by
    rw [clearTimer_nextTimer, appendBuf_nextTimer]
  rw [hnt] at hpe
  constructor
  · rw [hpe]
    intro hmem
    rcases List.mem_append.mp hmem with hin | hin
    · have := List.mem_filter.mp hin
      simp at this
    · have := h4 id t ht
      have heq : t = s.nextTimer := by simpa using hin
      omega
  · rw [hpe, List.countP_append]
    have hz : (s.pending.filter (fun p => p.1 != t)).countP (fun p => p.2 == id) = 0 := by
      rw [List.countP_eq_length_filter, List.length_eq_zero]
      rw [List.filter_eq_nil]
      intro p hp
      have hm := List.mem_filter.mp hp
      have hne : p.1 ≠ t := by simpa using hm.2
      intro hpid
      apply hne
      have := h1 p hm.1
      rw [show p.2 = id by simpa using hpid, ht] at this
      exact (Option.some_inj.mp this).symm
    rw [hz]
    simp

/-- C3 witness: after one output event on an enabled detector, the session
has a recorded timer, and a second output event cancels it and leaves exactly
one pending timer. -/
theorem c3_single_pending_timer_witness :
    ((run [] (fun _ => none)
        (initDetector [] (fun _ => none)
          { enabled := true, showDelay := 5, customPatterns := [] })
        [DetectorEvent.data "t1" ['a']]).config.enabled = true
      ∧ (run [] (fun _ => none)
          (initDetector [] (fun _ => none)
            { enabled := true, showDelay := 5, customPatterns := [] })
          [DetectorEvent.data "t1" ['a']]).timers "t1" = some 0)
    ∧ (0, "t1") ∉
        (onData (run [] (fun _ => none)
          (initDetector [] (fun _ => none)
            { enabled := true, showDelay := 5, customPatterns := [] })
          [DetectorEvent.data "t1" ['a']]) "t1" ['b']).pending
    ∧ (onData (run [] (fun _ => none)
        (initDetector [] (fun _ => none)
          { enabled := true, showDelay := 5, customPatterns := [] })
        [DetectorEvent.data "t1" ['a']]) "t1" ['b']).pending.countP
        (fun p => p.2 == "t1") = 1 := by
  have h := (c3_single_pending_timer [] (fun _ => none)
    { enabled := true, showDelay := 5, customPatterns := [] }
    [DetectorEvent.data "t1" ['a']] "t1").2 ['b'] 0 rfl (by decide)
  exact ⟨⟨rfl, by decide⟩, h.1, h.2⟩

/-- The notifications recorded for one terminal id. -/
def eventsFor (id : String) (s : DetectorState) : List (String × Bool) :=
  s.events.filter (fun e => e.1 == id)

/-- State of a removed session: nothing pending for it, no buffer, and not
recorded as waiting. -/
def RemovedQuiet (id : String) (s : DetectorState) : Prop :=
  (∀ p ∈ s.pending, p.2 ≠ id)
  ∧ s.buffers id = none
  ∧ (s.waitingState id).getD false = false

theorem eventsFor_congr {id : String} {s s' : DetectorState}
    (h : s'.events = s.events
      ∨ ∃ id' w, s'.events = s.events ++ [(id', w)] ∧ id' ≠ id) :
    eventsFor id s' = eventsFor id s := by
  unfold eventsFor
  rcases h with h | ⟨id', w, h, hne⟩
  · rw [h]
  · rw [h, List.filter_append]
    simp [hne]

theorem clearBuf_buffers_ne (s : DetectorState) {id x : String} (h : x ≠ id) :
    (clearBuf s id).buffers x = s.buffers x := by
  unfold clearBuf
  cases s.buffers id with
  | none => rfl
  | some b => simp [updMap_ne _ _ h]

theorem clearBuf_buffers_self_of_none (s : DetectorState) (id : String)
    (h : s.buffers id = none) : (clearBuf s id).buffers id = none := by
  unfold clearBuf
  rw [h]
  exact h

theorem appendBuf_buffers_ne (s : DetectorState) {id x : String} (d : List Char)
    (h : x ≠ id) : (appendBuf s id d).buffers x = s.buffers x := by
  show updMap s.buffers id _ x = s.buffers x
  rw [updMap_ne _ _ h]

theorem hideIfWaiting_waitingState_ne (s : DetectorState) {id x : String}
    (h : x ≠ id) : (hideIfWaiting s id).waitingState x = s.waitingState x := by
  unfold hideIfWaiting
  split
  · exact setWaitingState_waitingState_ne _ _ h
  · rfl

theorem hideIfWaiting_events_or (s : DetectorState) (id : String) :
    (hideIfWaiting s id).events = s.events
    ∨ (hideIfWaiting s id).events = s.events ++ [(id, false)] := by
  unfold hideIfWaiting
  split
  · rw [setWaitingState_events]
    split
    · left
      simp
    · right
      rfl
  · left
    rfl

theorem removedQuiet_removeTerminal (s : DetectorState) (id : String)
    (h : TimerInv s) : RemovedQuiet id (removeTerminal s id) := by
  obtain ⟨h1, _, _, _⟩ := h
  refine ⟨?_, ?_, ?_⟩
  · intro p hp hpid
    have hp' : p ∈ (clearTimer s id).pending := hp
    unfold clearTimer at hp'
    cases hm : s.timers id with
    | none =>
      rw [hm] at hp'
      have := h1 p hp'
      rw [hpid, hm] at this
      cases this
    | some t =>
      rw [hm] at hp'
      have hmem := List.mem_filter.mp hp'
      have hne : p.1 ≠ t := by simpa using hmem.2
      have := h1 p hmem.1
      rw [hpid, hm] at this
      exact hne (Option.some_inj.mp this).symm
  · show updMap (clearTimer s id).buffers id none id = none
    rw [updMap_self]
  · show (updMap (clearTimer s id).waitingState id none id).getD false = false
    rw [updMap_self]
    rfl

theorem removedQuiet_step (defaults : List JsRegExp)
    (compile : String → Option SearchFn) (id : String) (s : DetectorState)
    (e : DetectorEvent) (hq : RemovedQuiet id s)
    (he : ∀ chunk, e ≠ DetectorEvent.data id chunk) :
    RemovedQuiet id (step defaults compile s e)
    ∧ eventsFor id (step defaults compile s e) = eventsFor id s := by
  obtain ⟨hqp, hqb, hqw⟩ := hq
  cases e with
  | data id' chunk =>
    have hne : id' ≠ id := fun hh => (he chunk) (by rw [hh])
    show RemovedQuiet id (onData s id' chunk) ∧ eventsFor id (onData s id' chunk) = eventsFor id s
    unfold onData
    by_cases hen : s.config.enabled = false
    · rw [if_pos hen]
      exact ⟨⟨hqp, hqb, hqw⟩, rfl⟩
    · rw [if_neg hen]
      have hbase : (clearTimer (appendBuf s id' chunk) id').events = s.events := by
        rw [clearTimer_events, appendBuf_events]
      refine ⟨⟨?_, ?_, ?_⟩, ?_⟩
      · intro p hp hpid
        have hp2 : p ∈ (hideIfWaiting (clearTimer (appendBuf s id' chunk) id') id').pending
            ++ [((hideIfWaiting (clearTimer (appendBuf s id' chunk) id') id').nextTimer, id')] :=
          hp
        rcases List.mem_append.mp hp2 with hold | hnew
        · rw [hideIfWaiting_pending] at hold
          exact hqp p (show p ∈ s.pending from clearTimer_pending_subset (appendBuf s id' chunk) id' hold) hpid
        · have hp3 : p.2 = id' := by
            rw [List.mem_singleton.mp hnew]
          exact hne (hp3.symm.trans hpid)
      · show (sched _ id').buffers id = none
        rw [show ∀ s' : DetectorState, (sched s' id').buffers = s'.buffers from fun _ => rfl,
          hideIfWaiting_buffers, clearTimer_buffers, appendBuf_buffers_ne _ _ (Ne.symm hne)]
        exact hqb
      · show ((sched _ id').waitingState id).getD false = false
        rw [show ∀ s' : DetectorState, (sched s' id').waitingState = s'.waitingState
            from fun _ => rfl,
          hideIfWaiting_waitingState_ne _ (Ne.symm hne), clearTimer_waitingState,
          appendBuf_waitingState]
        exact hqw
      · apply eventsFor_congr
        rw [show ∀ s' : DetectorState, (sched s' id').events = s'.events from fun _ => rfl]
        rcases hideIfWaiting_events_or (clearTimer (appendBuf s id' chunk) id') id' with hh | hh
        · left
          rw [hh, hbase]
        · right
          exact ⟨id', false, by rw [hh, hbase], hne⟩
  | userInput id' =>
    show RemovedQuiet id (onUserInput s id') ∧ eventsFor id (onUserInput s id') = eventsFor id s
    have hwbase : ((clearTimer s id').waitingState id).getD false = false := by
      rw [clearTimer_waitingState]
      exact hqw
    refine ⟨⟨?_, ?_, ?_⟩, ?_⟩
    · intro p hp hpid
      have hp2 : p ∈ (setWaitingState (clearTimer s id') id' false).pending := by
        rw [← clearBuf_pending (setWaitingState (clearTimer s id') id' false) id']
        exact hp
      rw [setWaitingState_pending] at hp2
      exact hqp p (clearTimer_pending_subset _ _ hp2) hpid
    · show (clearBuf (setWaitingState (clearTimer s id') id' false) id').buffers id = none
      by_cases hii : id = id'
      · rw [hii]
        apply clearBuf_buffers_self_of_none
        rw [setWaitingState_buffers, clearTimer_buffers, ← hii]
        exact hqb
      · rw [clearBuf_buffers_ne _ hii, setWaitingState_buffers, clearTimer_buffers]
        exact hqb
    · show ((clearBuf (setWaitingState (clearTimer s id') id' false) id').waitingState
          id).getD false = false
      rw [clearBuf_waitingState]
      by_cases hii : id = id'
      · rw [hii, setWaitingState_getD]
      · rw [setWaitingState_waitingState_ne _ _ hii, clearTimer_waitingState]
        exact hqw
    · apply eventsFor_congr
      rw [show (onUserInput s id').events
            = (setWaitingState (clearTimer s id') id' false).events
          from clearBuf_events _ _, setWaitingState_events, clearTimer_events]
      by_cases hii : id' = id
      · left
        rw [← hii] at hwbase
        rw [hii] at hwbase
        have : ((clearTimer s id').waitingState id').getD false = false := by
          rw [clearTimer_waitingState]
          rw [← hii] at hqw
          exact hqw
        rw [if_pos this]
        simp
      · rcases (em (((clearTimer s id').waitingState id').getD false = false)) with hc | hc
        · left
          rw [if_pos hc]
          simp
        · right
          exact ⟨id', false, by rw [if_neg hc], hii⟩
  | fire t id' =>
    show RemovedQuiet id (fireTimer s t id') ∧ eventsFor id (fireTimer s t id') = eventsFor id s
    unfold fireTimer
    split
    · rename_i hmem
      have hne : id' ≠ id := fun hh => hqp (t, id') hmem (by rw [hh])
      refine ⟨⟨?_, ?_, ?_⟩, ?_⟩
      · intro p hp hpid
        rw [checkForPrompt_pending] at hp
        exact hqp p (List.mem_filter.mp hp).1 hpid
      · rw [checkForPrompt_buffers]
        exact hqb
      · rw [checkForPrompt_waitingState_ne _ (Ne.symm hne)]
        exact hqw
      · apply eventsFor_congr
        rcases checkForPrompt_events
            { s with pending := s.pending.filter (fun p => p.1 != t) } id' with hh | ⟨w, hh⟩
        · left
          exact hh
        · right
          exact ⟨id', w, hh, hne⟩
    · exact ⟨⟨hqp, hqb, hqw⟩, rfl⟩
  | remove id' =>
    show RemovedQuiet id (removeTerminal s id') ∧ eventsFor id (removeTerminal s id') = eventsFor id s
    refine ⟨⟨?_, ?_, ?_⟩, ?_⟩
    · intro p hp hpid
      exact hqp p (clearTimer_pending_subset _ _ hp) hpid
    · show updMap (clearTimer s id').buffers id' none id = none
      by_cases hii : id = id'
      · rw [hii, updMap_self]
      · rw [updMap_ne _ _ hii, clearTimer_buffers]
        exact hqb
    · show (updMap (clearTimer s id').waitingState id' none id).getD false = false
      by_cases hii : id = id'
      · rw [hii, updMap_self]
        rfl
      · rw [updMap_ne _ _ hii, clearTimer_waitingState]
        exact hqw
    · apply eventsFor_congr
      left
      exact clearTimer_events s id'
  | reconfig c =>
    exact ⟨⟨hqp, hqb, hqw⟩, rfl⟩

theorem removedQuiet_run (defaults : List JsRegExp)
    (compile : String → Option SearchFn) (id : String) (s : DetectorState)
    (evs : List DetectorEvent) (hq : RemovedQuiet id s)
    (he : ∀ chunk, DetectorEvent.data id chunk ∉ evs) :
    RemovedQuiet id (run defaults compile s evs)
    ∧ eventsFor id (run defaults compile s evs) = eventsFor id s := by
  induction evs generalizing s with
  | nil => exact ⟨hq, rfl⟩
  | cons e es ih =>
    have he1 : ∀ chunk, e ≠ DetectorEvent.data id chunk := by
      intro chunk hc
      exact he chunk (by rw [hc]; exact List.mem_cons_self _ _)
    have hes : ∀ chunk, DetectorEvent.data id chunk ∉ es :=
      fun chunk hc => he chunk (List.mem_cons_of_mem _ hc)
    obtain ⟨hq', hev⟩ := removedQuiet_step defaults compile id s e hq he1
    obtain ⟨hq'', hev'⟩ := ih _ hq' hes
    exact ⟨hq'', hev'.trans hev⟩

/-- C5: after `removeTerminal id` on a reachable state, no later event —
including the elapsing of a timer that was pending at the moment of
removal — can ever emit a notification for that id, as long as the removed
session receives no further output (it is detached from the multiplexer):
the notifications recorded for `id` stay exactly those recorded at removal
time. -/
theorem c5_removed_silent (defaults : List JsRegExp)
    (compile : String → Option SearchFn) (cfg : PromptDetectorConfig)
    (evs0 : List DetectorEvent) (id : String) (evs : List DetectorEvent)
    (hnd : ∀ chunk, DetectorEvent.data id chunk ∉ evs) :
    eventsFor id (run defaults compile
        (removeTerminal (run defaults compile (initDetector defaults compile cfg) evs0) id)
        evs)
      = eventsFor id
          (removeTerminal (run defaults compile (initDetector defaults compile cfg) evs0)
            id) := by
  have hinv := timerInv_run defaults compile _ evs0 (timerInv_init defaults compile cfg)
  exact (removedQuiet_run defaults compile id _ evs
    (removedQuiet_removeTerminal _ id hinv) hnd).2

/-- C5 witness: remove a session with a pending timer, then let the original
timer token fire — no notification for the removed id appears. -/
theorem c5_removed_silent_witness :
    eventsFor "t1" (run [] (fun _ => none)
        (removeTerminal (run [] (fun _ => none)
          (initDetector [] (fun _ => none)
            { enabled := true, showDelay := 5, customPatterns := [] })
          [DetectorEvent.data "t1" ['a']]) "t1")
        [DetectorEvent.fire 0 "t1"])
      = eventsFor "t1"
          (removeTerminal (run [] (fun _ => none)
            (initDetector [] (fun _ => none)
              { enabled := true, showDelay := 5, customPatterns := [] })
            [DetectorEvent.data "t1" ['a']]) "t1") :=
  c5_removed_silent [] (fun _ => none)
    { enabled := true, showDelay := 5, customPatterns := [] }
    [DetectorEvent.data "t1" ['a']] "t1" [DetectorEvent.fire 0 "t1"]
    (by intro chunk hc; simp at hc)
